import Mathlib

/-!
# SmartCardLink server — verification development

Shallow embedding of the client-lifecycle operations of the SmartCardLink
Express server (`server.js`, which contains two server drafts referred to
below as variant 1 and variant 2), together with theorems settling the
specification claims about them.

Conventions of the embedding:
* the Mongo collection of clients is a `List Client` (`Db`); `save` on an
  existing document replaces the entry with the same `id`, a freshly created
  document is appended;
* asynchronous externals (Cloudinary upload, QR generation, email, the random
  suffix source) are passed in as explicit parameters or modelled as pure
  functions;
* timestamps are not modelled (no claim mentions them);
* Mongoose `required` validation is modelled as a non-emptiness check run at
  save time, and the unique index on `slug` as a membership check against the
  other stored slugs.
-/

namespace SmartCardLink

/-- One entry of a client's embedded `history` array
(variant 1 calls the actor field `actorEmail`, variant 2 `actor`). -/
structure HistoryEntry where
  action : String
  notes : Option String
  actor : String
deriving DecidableEq, Repr

/-- The `Client` document, merging the fields of the two schema drafts that
the claims read.  `photoUrl` is an `Option` so that a Mongoose path set to
`undefined` (erased) is distinguishable from one set to a string. -/
structure Client where
  id : Nat
  fullName : String := ""
  title : String := ""
  company : String := ""
  phone1 : String := ""
  phone2 : String := ""
  phone3 : String := ""
  email1 : String := ""
  email2 : String := ""
  email3 : String := ""
  businessWebsite : String := ""
  portfolioWebsite : String := ""
  website : String := ""
  locationMap : String := ""
  bio : String := ""
  address : String := ""
  socialLinks : List (String × String) := []
  workingHours : List (String × String) := []
  photoUrl : Option String := none
  slug : String := ""
  vcardUrl : String := ""
  qrCodeUrl : String := ""
  status : String := "Pending"
  history : List HistoryEntry := []
deriving DecidableEq, Repr

/-- The client collection. -/
abbrev Db := List Client

/-- Model of `Client.findById`. -/
def findById (db : Db) (id : Nat) : Option Client :=
  db.find? (fun c => c.id = id)

/-- Model of `client.save()` on an already stored document: replace the entry with the
same `id`. -/
def saveClient (db : Db) (c : Client) : Db :=
  db.map (fun x => if x.id = c.id then c else x)

/-- All stored slugs (what the `Client.findOne({slug})` probes can see). -/
def slugsOf (db : Db) : List String :=
  db.map (fun c => c.slug)

/-- Slugs of every stored client other than `id` (for the unique-index check
when re-saving an existing document). -/
def slugsOfOthers (db : Db) (id : Nat) : List String :=
  (db.filter (fun c => c.id ≠ id)).map (fun c => c.slug)

/-! ## Slug generation

Variant 1 (`POST /api/clients`, lines 311-336) inlines
`slugify(fullName, { lower: true, strict: true })` followed by a
probe-and-suffix loop without an iteration cap.

Variant 2 (`generateUniqueSlug`, lines 873-893) lowercases/strips by hand and
caps the loop at 100 collisions, after which it falls back to a random
suffix. -/

/-- Collapse maximal runs of characters satisfying `p` into a single `'-'`
(the `replace(/[\s-]+/g, "-")` step). -/
def collapseRuns (p : Char → Bool) : List Char → List Char
  | [] => []
  | [c] => if p c then ['-'] else [c]
  | c :: d :: cs =>
    if p c && p d then collapseRuns p (d :: cs)
    else (if p c then '-' else c) :: collapseRuns p (d :: cs)

/-- Drop whitespace from both ends of a character list. -/
def trimChars (cs : List Char) : List Char :=
  ((cs.dropWhile Char.isWhitespace).reverse.dropWhile Char.isWhitespace).reverse

/-- The JavaScript `trim`, re-implemented so that it reduces inside the kernel. -/
def trimS (s : String) : String :=
  String.mk (trimChars s.data)

/-- The JavaScript `toLowerCase`, re-implemented so that it reduces inside the
kernel. -/
def lowerS (s : String) : String :=
  String.mk (s.data.map Char.toLower)

/-- Model of `slugify(s, { lower: true, strict: true })` on ASCII input:
hyphens become spaces, `strict` drops every character that is not
alphanumeric or whitespace, the rest is trimmed, whitespace runs collapse to
`'-'` and the result is lowercased.  (The package's non-ASCII `charMap` is
not modelled; no claim depends on it.) -/
def slugify1 (s : String) : String :=
  let step1 := s.data.map (fun c => if c = '-' then ' ' else c)
  let step2 := step1.filter (fun c => c.isAlphanum || c.isWhitespace)
  String.mk ((collapseRuns Char.isWhitespace (trimChars step2)).map Char.toLower)

/-- The candidate sequence tried by the variant-1 creation loop:
`base`, `base-1`, `base-2`, … -/
def slugCandidates (base : String) (fuel : Nat) : List String :=
  base :: (List.range fuel).map (fun k => base ++ "-" ++ toString (k + 1))

/-- The variant-1 probe loop: the first candidate that is not already stored.
`db.length + 1` candidates always suffice for a finite collection; `none`
models the loop still searching beyond the modelled bound. -/
def findFreeSlug (existing : List String) (base : String) : Option String :=
  (slugCandidates base (existing.length + 1)).find? (fun s => !(existing.contains s))

/-- The base-slug normalisation of variant 2's `generateUniqueSlug`:
lowercase, trim, drop everything but `[a-z0-9\s-]`, collapse `[\s-]+` runs to
`'-'`, truncate to 50 characters. -/
def baseSlug2 (name : String) : String :=
  let cs := (trimChars (name.data.map Char.toLower)).filter
    (fun c => (('a' ≤ c && c ≤ 'z') || c.isDigit || c.isWhitespace || c = '-'))
  String.mk ((collapseRuns (fun c => c.isWhitespace || c = '-') cs).take 50)

/-- The collision loop of `generateUniqueSlug`: starting from `slug`, while
the slug is taken append `-counter`; once the counter passes 100 give up and
use the caller-supplied random suffix (`Math.random().toString(36)…`).  The
`fuel` argument only bounds the recursion; it never reaches zero for the
initial `fuel = 101`. -/
def gusGo (existing : List String) (base rand : String) : Nat → Nat → String → String
  | _, 0, slug => slug
  | counter, fuel + 1, slug =>
    if existing.contains slug then
      if counter + 1 > 100 then base ++ "-" ++ rand
      else gusGo existing base rand (counter + 1) fuel (base ++ "-" ++ toString counter)
    else slug

/-- Variant 2's `generateUniqueSlug(name)`; `rand` stands for the random
suffix drawn on the high-collision path. -/
def generateUniqueSlug (existing : List String) (name : String) (rand : String) : String :=
  gusGo existing (baseSlug2 name) rand 1 101 (baseSlug2 name)

/-! ## vCard content encoder

`generateVcardContent` (variant 2, lines 896-938) fills a `vcards-js` object
from the client's fields and returns `vCard.getFormattedString()`.  The field
assignments below are translated from the source; the `vcards-js` serializer
itself is an external npm dependency whose code is not part of this
repository, so it is modelled from the spec (see `getFormattedString`). -/

/-- The `vcards-js` card object: every property the source assigns,
initialised to the library's empty-string defaults. -/
structure VCardObj where
  firstName : String := ""
  lastName : String := ""
  formattedName : String := ""
  organization : String := ""
  cardTitle : String := ""
  cellPhone : String := ""
  workPhone : String := ""
  otherPhone : String := ""
  email : String := ""
  workEmail : String := ""
  otherEmail : String := ""
  homeAddressLabel : String := ""
  url : String := ""
  note : String := ""
  socialmedia : String := ""
  photoUrl : String := ""
deriving DecidableEq, Repr

/-- vCard escaping of one character: backslash, line break, comma and
semicolon are escaped per the vCard text-value escaping rules. -/
def escChar (c : Char) : List Char :=
  if c = '\\' then ['\\', '\\']
  else if c = '\n' then ['\\', 'n']
  else if c = ',' then ['\\', ',']
  else if c = ';' then ['\\', ';']
  else [c]

/-- vCard escaping of a character list. -/
def vcardEscapeL : List Char → List Char
  | [] => []
  | c :: cs => escChar c ++ vcardEscapeL cs

/-- vCard escaping of a string. -/
def vcardEscape (s : String) : String :=
  String.mk (vcardEscapeL s.data)

/-- A conformant parser's unescaping of a vCard text value. -/
def vcardUnescapeL : List Char → List Char
  | [] => []
  | [c] => [c]
  | c :: d :: cs =>
    if c = '\\' then
      (if d = 'n' then '\n' else d) :: vcardUnescapeL cs
    else c :: vcardUnescapeL (d :: cs)

/-- Unescaping of a string. -/
def vcardUnescape (s : String) : String :=
  String.mk (vcardUnescapeL s.data)

/-- Split a character list at every occurrence of `sep` (JavaScript
`String.prototype.split` with a single-character separator: adjacent
separators yield empty fragments, the empty string yields one empty
fragment). -/
def splitOnSep (sep : Char) : List Char → List (List Char)
  | [] => [[]]
  | c :: cs =>
    let r := splitOnSep sep cs
    if c = sep then [] :: r
    else (c :: r.headD []) :: r.tail

/-- JavaScript `s.split(" ")`, as a list of strings. -/
def splitSpaces (s : String) : List String :=
  (splitOnSep ' ' s.data).map String.mk

/-- Join strings with a separator (JavaScript `Array.prototype.join`),
re-implemented so that it reduces inside the kernel. -/
def joinWith (sep : String) : List String → String
  | [] => ""
  | [s] => s
  | s :: t :: ts => s ++ sep ++ joinWith sep (t :: ts)

/-- The field assignments of `generateVcardContent` (lines 897-935): split
the full name at spaces into first/remaining, copy the contact fields that
are set, consolidate the website fields, render the social links block,
attach the photo URL. -/
def buildVcard (c : Client) : VCardObj :=
  let names := splitSpaces c.fullName
  let socialText := joinWith "\n"
    ((c.socialLinks.filter (fun p => p.2 ≠ "")).map (fun p => p.1 ++ ": " ++ p.2))
  { firstName := names.headD ""
    lastName := joinWith " " names.tail
    formattedName := c.fullName
    organization := c.company
    cardTitle := c.title
    cellPhone := c.phone1
    email := c.email1
    workPhone := c.phone2
    workEmail := c.email2
    otherPhone := c.phone3
    otherEmail := c.email3
    homeAddressLabel := c.address
    url := if c.website ≠ "" then c.website else c.businessWebsite
    note := if c.portfolioWebsite ≠ "" then "Portfolio: " ++ c.portfolioWebsite else ""
    socialmedia := socialText
    photoUrl := c.photoUrl.getD "" }

/-- A property line `(name, escaped value)`, emitted only when the value is
non-empty (the serializer skips unset properties). -/
def optProp (v : String) (k : String) : List (String × String) :=
  if v = "" then [] else [(k, vcardEscape v)]

/-- Modelled from the spec: the property list produced by the `vcards-js`
`getFormattedString` serializer, which is an external dependency not present
in this repository.  Per the spec it is a deterministic function of the
assigned fields in which free-text values have line-break, comma and
semicolon characters escaped per the vCard escaping rules. -/
def vcardProps (v : VCardObj) : List (String × String) :=
  [("N", vcardEscape v.lastName ++ ";" ++ vcardEscape v.firstName ++ ";;;"),
   ("FN", vcardEscape v.formattedName)]
  ++ optProp v.organization "ORG"
  ++ optProp v.cardTitle "TITLE"
  ++ optProp v.cellPhone "TEL;TYPE=CELL"
  ++ optProp v.workPhone "TEL;TYPE=WORK"
  ++ optProp v.otherPhone "TEL;TYPE=OTHER"
  ++ optProp v.email "EMAIL"
  ++ optProp v.workEmail "EMAIL;TYPE=WORK"
  ++ optProp v.otherEmail "EMAIL;TYPE=OTHER"
  ++ optProp v.homeAddressLabel "LABEL;TYPE=HOME"
  ++ optProp v.url "URL"
  ++ optProp v.note "NOTE"
  ++ optProp v.socialmedia "X-SOCIALPROFILE"
  ++ optProp v.photoUrl "PHOTO;VALUE=URI"

/-- Modelled from the spec: `vCard.getFormattedString()` of the external
`vcards-js` dependency — the deterministic textual rendering of the card's
property lines. -/
def getFormattedString (v : VCardObj) : String :=
  joinWith "\x0d\n"
    (["BEGIN:VCARD", "VERSION:3.0"]
      ++ (vcardProps v).map (fun p => p.1 ++ ":" ++ p.2)
      ++ ["END:VCARD"])

/-- Model of `generateVcardContent` (variant 2, lines 896-938). -/
def generateVcardContent (c : Client) : String :=
  getFormattedString (buildVcard c)

/-- Key lookup among property lines (a conformant parser's view of the
payload: the value of the first line carrying the given property name). -/
def findProp (k : String) : List (String × String) → Option String
  | [] => none
  | p :: ps => if p.1 = k then some p.2 else findProp k ps

/-- The projection of a client onto exactly the fields `generateVcardContent`
reads. -/
def encProj (c : Client) : List String :=
  [c.fullName, c.company, c.title, c.phone1, c.phone2, c.phone3,
   c.email1, c.email2, c.email3, c.address, c.website, c.businessWebsite,
   c.portfolioWebsite, c.photoUrl.getD "",
   joinWith "\n"
     ((c.socialLinks.filter (fun p => p.2 ≠ "")).map (fun p => p.1 ++ ": " ++ p.2))]

end SmartCardLink

namespace SmartCardLink
/-! ## Route handlers

Each handler becomes a function `Db → … → Db × Res Client`: the new
collection state and the HTTP outcome.  A handler that fails before any
`save` returns the collection unchanged, exactly as the straight-line source
does. -/

/-- Outcome of a handler: the successfully saved client, an HTTP error
status, or (`spin`) the variant-1 slug probe loop still searching past the
modelled bound — unreachable for a finite collection. -/
inductive Res (α : Type) where
  | ok (a : α)
  | fail (code : Nat)
  | spin
deriving DecidableEq, Repr

/-- Returns `true` exactly on the success outcome. -/
def resOk {α : Type} : Res α → Bool
  | .ok _ => true
  | _ => false

/-- Configuration constant `APP_BASE_URL` (environment; the value is left abstract). -/
def appBaseUrl : String := "APP_BASE_URL"

/-- Configuration constant `APP_FALLBACK_URL` (environment; the value is left abstract). -/
def appFallbackUrl : String := "APP_FALLBACK_URL"

/-- Configuration constant `VCARD_BASE_URL` (environment; the value is left abstract). -/
def vcardBaseUrl : String := "VCARD_BASE_URL"

/-- Modelled from the spec: the external QR encoder
(`QRCode.toDataURL` / `qrcode.toDataURL`), a deterministic data-URL rendering
of the encoded link. -/
def qrDataUrl (link : String) : String :=
  "data:image/png;base64," ++ link

/-- The body of variant 1's public `POST /api/clients` (lines 311-336); the
schema defaults of variant 1 apply.  `history` records that the spread
`{...req.body}` also copies a `history` array when the body carries one
(normally absent, hence `[]`). -/
structure Create1Req where
  fullName : String := ""
  title : String := ""
  company : String := ""
  phone1 : String := ""
  phone2 : String := ""
  phone3 : String := ""
  email1 : String := ""
  email2 : String := ""
  email3 : String := ""
  businessWebsite : String := ""
  portfolioWebsite : String := ""
  locationMap : String := ""
  bio : String := ""
  address : String := ""
  photoUrl : Option String := none
  history : List HistoryEntry := []
deriving DecidableEq, Repr

/-- The document built by variant 1's create route (schema `trim` setters
applied, `slug` and `status` overriding the body spread). -/
def mkClient1 (req : Create1Req) (slug : String) (id : Nat) : Client :=
  { id := id
    fullName := trimS req.fullName
    title := trimS req.title
    company := trimS req.company
    phone1 := trimS req.phone1
    phone2 := trimS req.phone2
    phone3 := trimS req.phone3
    email1 := trimS (lowerS req.email1)
    email2 := trimS (lowerS req.email2)
    email3 := trimS (lowerS req.email3)
    businessWebsite := trimS req.businessWebsite
    portfolioWebsite := trimS req.portfolioWebsite
    locationMap := trimS req.locationMap
    bio := trimS req.bio
    address := trimS req.address
    photoUrl := some (req.photoUrl.getD "")
    slug := slug
    status := "Pending"
    history := req.history }

/-- Mongoose save-time validation of the variant-1 schema: the `required`
paths (`fullName`, `title`, `phone1`, `email1`, `company`, `slug`) must be
non-empty.  (The email format regex is not modelled; no claim depends on
it.) -/
def requiredOk1 (c : Client) : Bool :=
  c.fullName ≠ "" && c.title ≠ "" && c.phone1 ≠ "" && c.email1 ≠ "" &&
  c.company ≠ "" && c.slug ≠ ""

/-- Variant 1 `POST /api/clients`: probe-and-suffix slug generation, then
build the document with `status = "Pending"` and save it (validation error →
400, duplicate slug key → 500, neither persists anything). -/
def create1 (db : Db) (req : Create1Req) (newId : Nat) : Db × Res Client :=
  match findFreeSlug (slugsOf db) (slugify1 req.fullName) with
  | none => (db, .spin)
  | some slug =>
    let c := mkClient1 req slug newId
    if requiredOk1 c then
      if (slugsOf db).contains c.slug then (db, .fail 500)
      else (db ++ [c], .ok c)
    else (db, .fail 400)

/-- The body of variant 2's `POST /api/clients` (lines 1115-1149);
`companyName` is normalised onto `company` when present. -/
structure Create2Req where
  fullName : String := ""
  title : String := ""
  company : String := ""
  companyName : String := ""
  phone1 : String := ""
  phone2 : String := ""
  phone3 : String := ""
  email1 : String := ""
  email2 : String := ""
  email3 : String := ""
  businessWebsite : String := ""
  portfolioWebsite : String := ""
  website : String := ""
  locationMap : String := ""
  bio : String := ""
  address : String := ""
  photoUrl : Option String := none
  socialLinks : List (String × String) := []
  workingHours : List (String × String) := []
  history : List HistoryEntry := []
deriving DecidableEq, Repr

/-- Mongoose save-time validation of the variant-2 schema: only `fullName`
and `slug` are `required`. -/
def requiredOk2 (c : Client) : Bool :=
  c.fullName ≠ "" && c.slug ≠ ""

/-- Variant 2 `POST /api/clients`: normalise `companyName`, build the
document, force `status = "Pending"`, generate the slug with
`generateUniqueSlug`, push the `CLIENT_CREATED` history entry, save. -/
def create2 (db : Db) (req : Create2Req) (newId : Nat) (rand : String) : Db × Res Client :=
  let company := if req.companyName ≠ "" then req.companyName else req.company
  let slug := generateUniqueSlug (slugsOf db) req.fullName rand
  let c : Client :=
    { id := newId
      fullName := trimS req.fullName
      title := trimS req.title
      company := trimS company
      phone1 := trimS req.phone1
      phone2 := trimS req.phone2
      phone3 := trimS req.phone3
      email1 := trimS (lowerS req.email1)
      email2 := trimS (lowerS req.email2)
      email3 := trimS (lowerS req.email3)
      businessWebsite := trimS req.businessWebsite
      portfolioWebsite := trimS req.portfolioWebsite
      website := trimS req.website
      locationMap := trimS req.locationMap
      bio := req.bio
      address := req.address
      socialLinks := req.socialLinks
      workingHours := req.workingHours
      photoUrl := some (req.photoUrl.getD "")
      slug := slug
      status := "Pending"
      history := req.history ++
        [{ action := "CLIENT_CREATED", notes := some "Initial form submission",
           actor := "client_submission" }] }
  if requiredOk2 c then
    if (slugsOf db).contains c.slug then (db, .fail 500)
    else (db ++ [c], .ok c)
  else (db, .fail 400)

/-- The body of variant 1's `PUT /api/clients/:id` (lines 407-433).  The
route destructures `photoUrl` and then `Object.assign`s the whole remaining
body onto the document, so arbitrary keys — including `slug`, `status` and
`history` — are copied when present (`none` = key absent from the body). -/
structure Update1Req where
  fullName : Option String := none
  title : Option String := none
  company : Option String := none
  phone1 : Option String := none
  phone2 : Option String := none
  phone3 : Option String := none
  email1 : Option String := none
  email2 : Option String := none
  email3 : Option String := none
  businessWebsite : Option String := none
  portfolioWebsite : Option String := none
  locationMap : Option String := none
  bio : Option String := none
  address : Option String := none
  slug : Option String := none
  status : Option String := none
  history : Option (List HistoryEntry) := none
  photoUrl : Option String := none
deriving DecidableEq, Repr

/-- The `Object.assign` of one optional body field onto a stored string field,
with the schema `trim` setter applied. -/
def assignT (v : Option String) (old : String) : String :=
  match v with
  | some s => trimS s
  | none => old

/-- Variant 1 `PUT /api/clients/:id`: assign the body onto the document,
overwrite `photoUrl` with the destructured body value unconditionally, force
`status = "Processed"`, push the save-info history entry, save. -/
def update1 (db : Db) (id : Nat) (req : Update1Req) : Db × Res Client :=
  match findById db id with
  | none => (db, .fail 404)
  | some c0 =>
    let c1 : Client :=
      { c0 with
        fullName := assignT req.fullName c0.fullName
        title := assignT req.title c0.title
        company := assignT req.company c0.company
        phone1 := assignT req.phone1 c0.phone1
        phone2 := assignT req.phone2 c0.phone2
        phone3 := assignT req.phone3 c0.phone3
        email1 := assignT (req.email1.map lowerS) c0.email1
        email2 := assignT (req.email2.map lowerS) c0.email2
        email3 := assignT (req.email3.map lowerS) c0.email3
        businessWebsite := assignT req.businessWebsite c0.businessWebsite
        portfolioWebsite := assignT req.portfolioWebsite c0.portfolioWebsite
        locationMap := assignT req.locationMap c0.locationMap
        bio := assignT req.bio c0.bio
        address := assignT req.address c0.address
        slug := assignT req.slug c0.slug
        status := assignT req.status c0.status
        history := req.history.getD c0.history }
    let c2 := { c1 with photoUrl := req.photoUrl, status := "Processed" }
    let c3 := { c2 with history := c2.history ++
        [{ action := "CLIENT_UPDATED / SAVE_INFO",
           notes := some "Admin confirmed and saved client data.",
           actor := "admin" }] }
    if requiredOk1 c3 then
      if (slugsOfOthers db id).contains c3.slug then (db, .fail 500)
      else (saveClient db c3, .ok c3)
    else (db, .fail 400)

/-- The body of variant 2's `PUT /api/clients/:id` (lines 1208-1280), limited
to its `allowedTopLevelFields` whitelist plus the nested objects.
`filePhotoUrl` is the Cloudinary URL of an uploaded `req.file`, when one was
sent (it overrides a body `photoUrl`). -/
structure Update2Req where
  fullName : Option String := none
  title : Option String := none
  company : Option String := none
  businessWebsite : Option String := none
  portfolioWebsite : Option String := none
  locationMap : Option String := none
  phone1 : Option String := none
  phone2 : Option String := none
  phone3 : Option String := none
  email1 : Option String := none
  email2 : Option String := none
  email3 : Option String := none
  address : Option String := none
  bio : Option String := none
  status : Option String := none
  photoUrl : Option String := none
  filePhotoUrl : Option String := none
  socialLinks : Option (List (String × String)) := none
  workingHours : Option (List (String × String)) := none
deriving DecidableEq, Repr

/-- Key-by-key `Object.assign` merge of an association list (nested
`socialLinks` / `workingHours` updates: keys present in `upd` override,
other stored keys survive). -/
def mergeAssoc (old upd : List (String × String)) : List (String × String) :=
  old.map (fun p =>
    match upd.find? (fun q => q.1 = p.1) with
    | some q => q
    | none => p)
  ++ upd.filter (fun q => !(old.any (fun p => p.1 = q.1)))

/-- Variant 2 `PUT /api/clients/:id`: regenerate the slug when the body's
`fullName` is present and differs from the stored one, apply the whitelisted
fields (`photoUrl` only when truthy, a file upload overriding the body
value), merge the nested objects key-by-key, push the `CLIENT_UPDATED`
history entry, save. -/
def update2 (db : Db) (id : Nat) (req : Update2Req) (rand : String) : Db × Res Client :=
  match findById db id with
  | none => (db, .fail 404)
  | some c0 =>
    let newSlug :=
      match req.fullName with
      | some fn =>
        if fn ≠ "" && fn ≠ c0.fullName then generateUniqueSlug (slugsOf db) fn rand
        else c0.slug
      | none => c0.slug
    let c1 := { c0 with slug := newSlug }
    let photoIncoming :=
      match req.filePhotoUrl with
      | some u => some u
      | none => req.photoUrl
    let c2 : Client :=
      { c1 with
        fullName := assignT req.fullName c1.fullName
        title := assignT req.title c1.title
        company := assignT req.company c1.company
        businessWebsite := assignT req.businessWebsite c1.businessWebsite
        portfolioWebsite := assignT req.portfolioWebsite c1.portfolioWebsite
        locationMap := assignT req.locationMap c1.locationMap
        phone1 := assignT req.phone1 c1.phone1
        phone2 := assignT req.phone2 c1.phone2
        phone3 := assignT req.phone3 c1.phone3
        email1 := assignT (req.email1.map lowerS) c1.email1
        email2 := assignT (req.email2.map lowerS) c1.email2
        email3 := assignT (req.email3.map lowerS) c1.email3
        address := req.address.getD c1.address
        bio := req.bio.getD c1.bio
        status := assignT req.status c1.status }
    let newPhoto :=
      match photoIncoming with
      | some p => if p ≠ "" then some p else c2.photoUrl
      | none => c2.photoUrl
    let c3 := { c2 with photoUrl := newPhoto }
    let c4 :=
      { c3 with
        socialLinks := match req.socialLinks with
          | some links => mergeAssoc c3.socialLinks links
          | none => c3.socialLinks
        workingHours := match req.workingHours with
          | some hours => mergeAssoc c3.workingHours hours
          | none => c3.workingHours }
    let c5 := { c4 with history := c4.history ++
        [{ action := "CLIENT_UPDATED", notes := some "Admin saved info",
           actor := "admin" }] }
    if requiredOk2 c5 then
      if (slugsOfOthers db id).contains c5.slug then (db, .fail 500)
      else (saveClient db c5, .ok c5)
    else (db, .fail 400)

/-- Variant 1 `POST /api/clients/:id/vcard` (lines 436-479): requires status
`"Processed"`, stores the public profile link as `vcardUrl` and a QR code of
the fallback link, sets `status = "Active"`, pushes the `VCARD_CREATED`
history entry, saves.  (Email success only changes the response message.) -/
def vcard1 (db : Db) (id : Nat) : Db × Res Client :=
  match findById db id with
  | none => (db, .fail 404)
  | some c0 =>
    if c0.status ≠ "Processed" then (db, .fail 400)
    else
      let finalVcardUrl := appBaseUrl ++ "/" ++ c0.slug
      let qr := qrDataUrl (appFallbackUrl ++ "/vcard/" ++ toString id)
      let c1 := { c0 with
        vcardUrl := finalVcardUrl
        qrCodeUrl := qr
        status := "Active"
        history := c0.history ++
          [{ action := "VCARD_CREATED", notes := some "vCard and QR code generated.",
             actor := "admin" }] }
      (saveClient db c1, .ok c1)

/-- Outcome of the `uploadVcfToCloudinary` call (lines 941-956): the secure
URL, or a thrown error. -/
inductive UploadOutcome where
  | ok (url : String)
  | err
deriving DecidableEq, Repr

/-- Variant 2 `POST /api/clients/:id/vcard` (lines 1354-1408): require a name
and one contact channel, ensure a slug, encode the vCard content, upload it
(a thrown upload error is caught as a 500 **before any save**), generate the
QR code of the public page, set `vcardUrl`/`qrCodeUrl`/`status = "Active"`,
push the `VCARD_CREATED` history entry, save.  Email failures are swallowed
by `sendEmail` and do not affect state. -/
def vcard2 (db : Db) (id : Nat) (rand : String) (upload : UploadOutcome) : Db × Res Client :=
  match findById db id with
  | none => (db, .fail 404)
  | some c0 =>
    if c0.fullName = "" || (c0.phone1 = "" && c0.email1 = "") then (db, .fail 400)
    else
      let slug1 :=
        if c0.slug = "" || trimS c0.slug = "" then
          generateUniqueSlug (slugsOf db) c0.fullName rand
        else c0.slug
      let c1 := { c0 with slug := slug1 }
      let publicVcardPage := vcardBaseUrl ++ "/" ++ c1.slug
      let _vcardContent := generateVcardContent c1
      match upload with
      | .err => (db, .fail 500)
      | .ok url =>
        let qr := qrDataUrl publicVcardPage
        let c2 := { c1 with
          vcardUrl := url
          qrCodeUrl := qr
          status := "Active"
          history := c1.history ++
            [{ action := "VCARD_CREATED",
               notes := some ("vCard at " ++ url ++ ", Public Page: " ++ publicVcardPage),
               actor := "admin" }] }
        (saveClient db c2, .ok c2)

/-- Variant 1 `PUT /api/clients/:id/status/:newStatus` (lines 505-534):
validate the status against `["Active", "Disabled", "Deleted"]` and require
notes of at least 5 characters **before** touching the database; then
overwrite the status, push the history entry, save. -/
def status1 (db : Db) (id : Nat) (newStatus : String) (notes : Option String) :
    Db × Res Client :=
  if !(["Active", "Disabled", "Deleted"].contains newStatus) then (db, .fail 400)
  else
    match notes with
    | none => (db, .fail 400)
    | some n =>
      if n = "" || n.length < 5 then (db, .fail 400)
      else
        match findById db id with
        | none => (db, .fail 404)
        | some c0 =>
          let c1 := { c0 with
            status := newStatus
            history := c0.history ++
              [{ action := "STATUS_CHANGED to " ++ newStatus, notes := some n,
                 actor := "admin" }] }
          (saveClient db c1, .ok c1)

/-- Variant 2 `PUT /api/clients/:id/status/:newStatus` (lines 1284-1308):
validate the status against `["Pending", "Active", "Suspended", "Deleted"]`
— the notes body field is passed through without any check — then overwrite
the status, push the history entry, save. -/
def status2 (db : Db) (id : Nat) (newStatus : String) (notes : Option String) :
    Db × Res Client :=
  if !(["Pending", "Active", "Suspended", "Deleted"].contains newStatus) then (db, .fail 400)
  else
    match findById db id with
    | none => (db, .fail 404)
    | some c0 =>
      let c1 := { c0 with
        status := newStatus
        history := c0.history ++
          [{ action := "STATUS_CHANGED", notes := notes, actor := "admin" }] }
      (saveClient db c1, .ok c1)

/-- Variant 2 `DELETE /api/clients/:id` (lines 1312-1332): soft delete — set
`status = "Deleted"`, push the `CLIENT_DELETED` history entry, save.  The
`notes` body field is copied without validation. -/
def delete2 (db : Db) (id : Nat) (notes : Option String) : Db × Res Client :=
  match findById db id with
  | none => (db, .fail 404)
  | some c0 =>
    let c1 := { c0 with
      status := "Deleted"
      history := c0.history ++
        [{ action := "CLIENT_DELETED", notes := notes, actor := "admin" }] }
    (saveClient db c1, .ok c1)

/-! ## PDF Render Gate

`const pdfSemaphore = new Semaphore(1)` (line 71) and its sole use in
variant 1's `GET /api/clients/:id/pdf` (lines 482-502):

    const release = await pdfSemaphore.acquire();
    try { … render and stream, or 404, or 500 … } finally { release(); }

The `await-semaphore` package keeps a count and a FIFO task queue: `acquire`
grants a free slot immediately and otherwise enqueues the caller; `release`
hands the slot to the queue head, or returns it to the count when nobody
waits.  The route body runs entirely inside the critical section and
finishes with one of the statuses 200 (PDF streamed), 404 (client missing)
or 500 (render error); the `finally` block releases on all three paths.

Each request is a phase (`idle` = arrived, about to call `acquire`;
`waiting` = parked in the semaphore queue; `holding` = inside the critical
section; `done code` = responded with `code` after releasing). -/

/-- Lifecycle phase of one PDF request. -/
inductive GPhase where
  | idle
  | waiting
  | holding
  | done (code : Nat)
deriving DecidableEq, Repr

/-- Global state: the semaphore count, its FIFO queue of request indices,
and the phase of each request (indexed by position). -/
structure GSys where
  count : Nat
  queue : List Nat
  reqs : List GPhase
deriving DecidableEq, Repr

/-- The response statuses the route body can produce (stream OK, client not
found, render error).  All of them run through the `finally` release. -/
def finishCodes : List Nat := [200, 404, 500]

/-- The `release()` step: hand the slot to the queue head, or return it to the
count. -/
def releaseSlot (count : Nat) : List Nat → List GPhase → Nat × List Nat × List GPhase
  | [], reqs => (count + 1, [], reqs)
  | h :: t, reqs => (count, t, reqs.set h .holding)

/-- All transitions available to request `i`: an idle request acquires the
free slot or joins the queue; a holding request finishes its body with one of
the route statuses and releases in `finally`; waiting and done requests have
no move of their own (a waiter is resumed by the releaser). -/
def movesFor (s : GSys) (i : Nat) : List GSys :=
  match s.reqs[i]? with
  | some .idle =>
    if s.count = 1 then
      [{ s with count := 0, reqs := s.reqs.set i .holding }]
    else
      [{ s with queue := s.queue ++ [i], reqs := s.reqs.set i .waiting }]
  | some .holding =>
    finishCodes.map (fun code =>
      let r := releaseSlot s.count s.queue (s.reqs.set i (.done code))
      { count := r.1, queue := r.2.1, reqs := r.2.2 })
  | _ => []

/-- One interleaving step of the whole system. -/
def nextStates (s : GSys) : List GSys :=
  (List.range s.reqs.length).flatMap (fun i => movesFor s i)

/-- The step relation. -/
def GStep (s t : GSys) : Prop := t ∈ nextStates s

instance (s t : GSys) : Decidable (GStep s t) :=
  inferInstanceAs (Decidable (t ∈ nextStates s))

/-- Reachability from a state. -/
def GReach (s t : GSys) : Prop := Relation.ReflTransGen GStep s t

/-- Initial state for `n` concurrent PDF requests: slot free, queue empty,
everybody about to acquire. -/
def initSys (n : Nat) : GSys :=
  { count := 1, queue := [], reqs := List.replicate n .idle }

/-- Number of requests currently inside the critical section. -/
def numHolding (s : GSys) : Nat :=
  s.reqs.countP (fun p => p == GPhase.holding)

/-- Inductive invariant of the gate: slot conservation (the free count plus
the number of holders is always exactly one), every queued request is in the
waiting phase, the queue has no duplicates, and every finished request
responded with one of the route's statuses. -/
def GInv (s : GSys) : Prop :=
  s.count + numHolding s = 1 ∧
  (∀ r ∈ s.queue, s.reqs[r]? = some GPhase.waiting) ∧
  s.queue.Nodup ∧
  (∀ (i c : Nat), s.reqs[i]? = some (GPhase.done c) → c ∈ finishCodes)

/-! ## Concrete demonstration data -/

/-- A concrete stored client used by witnesses and counterexamples. -/
def demoClient : Client :=
  { id := 1, fullName := "Jane Doe", title := "CEO", company := "Acme",
    phone1 := "555-1000", email1 := "jane@x.com", slug := "jane-doe",
    status := "Pending", history := [] }

/-- A one-client collection. -/
def demoDb : Db := [demoClient]

/-- The gate state after two sequential PDF requests have both finished. -/
def gateDemoEnd : GSys :=
  { count := 1, queue := [], reqs := [GPhase.done 200, GPhase.done 404] }

/-- Breadth-first closure of the two-request gate system. -/
def exploreN : Nat → List GSys
  | 0 => [initSys 2]
  | n + 1 =>
    let prev := exploreN n
    (prev ++ prev.flatMap nextStates).dedup

/-- The full reachable state space of two concurrent PDF requests. -/
def gateStates : List GSys := exploreN 6

/-- The finite-model check refuting a timeout: the listed state set contains
the initial state, is closed under every transition, contains a state in
which a request is parked waiting — and in no state whatsoever has any
request answered 503.  A waiting request therefore never receives a busy
error: it simply stays queued until the slot is released. -/
def gateCheck : Bool :=
  gateStates.contains (initSys 2)
    && gateStates.all (fun s => (nextStates s).all (fun t => gateStates.contains t))
    && gateStates.any (fun s => s.reqs.any (fun p => p == GPhase.waiting))
    && gateStates.all (fun s => s.reqs.all (fun p => !(p == GPhase.done 503)))

/-- The example scenario's create body. -/
def demoCreateReq : Create1Req :=
  { fullName := "Jane Doe", title := "CEO", company := "Acme",
    phone1 := "555-1000", email1 := "jane@x.com" }

/-- The C5 counterexample's update body: an admin rename. -/
def demoRenameReq : Update2Req := { fullName := some "John Smith" }

/-- A client whose bio holds the separator characters of the claim. -/
def demoBioA : Client := { demoClient with bio := "line1\nline2, part; end" }

/-- The same client with a different bio. -/
def demoBioB : Client := { demoClient with bio := "different" }

/-- A client with an address full of characters that need escaping. -/
def demoAddr : Client := { demoClient with address := "1, Main; St\nSuite 5" }

/-- Pairing of two encodings, used to state call-order independence. -/
def encodePair (a b : Client) : String × String :=
  (generateVcardContent a, generateVcardContent b)

/-- History lengths across a stored collection. -/
def historyLengths (db : Db) : List Nat :=
  db.map (fun c => c.history.length)

/-- The stored client after the witness status change. -/
def demoDisabled : Client :=
  { demoClient with
    status := "Disabled"
    history := demoClient.history ++
      [{ action := "STATUS_CHANGED to " ++ "Disabled", notes := some "client requested",
         actor := "admin" }] }

/-- The stored client after the witness rename through variant 2's Update. -/
def demoRenamed : Client :=
  { demoClient with
    fullName := "John Smith"
    slug := "john-smith"
    history := [{ action := "CLIENT_UPDATED", notes := some "Admin saved info",
                  actor := "admin" }] }

/-- The stored client after the witness variant-1 Update with an empty body. -/
def demoProcessed : Client :=
  { demoClient with
    status := "Processed"
    history := [{ action := "CLIENT_UPDATED / SAVE_INFO",
                  notes := some "Admin confirmed and saved client data.",
                  actor := "admin" }] }

/-- Effect of `List.set` on `countP`, phrased without truncated
subtraction. -/
theorem countP_set_balance {α : Type} (f : α → Bool) :
    ∀ (l : List α) (i : Nat) (a b : α), l[i]? = some a →
      (l.set i b).countP f + (if f a then 1 else 0)
        = l.countP f + (if f b then 1 else 0) := by
  intro l
  induction l with
  | nil => intro i a b h; simp at h
  | cons x xs ih =>
    intro i a b h
    cases i with
    | zero =>
      simp only [List.getElem?_cons_zero, Option.some.injEq] at h
      subst h
      simp only [List.set_cons_zero, List.countP_cons]
      omega
    | succ n =>
      simp only [List.getElem?_cons_succ] at h
      simp only [List.set_cons_succ, List.countP_cons]
      have := ih n a b h
      omega

/-- Two distinct positions whose entries both satisfy `f` force a count of at
least two. -/
theorem countP_two_of_ne {α : Type} (f : α → Bool) :
    ∀ (l : List α) (i j : Nat) (a b : α), i ≠ j →
      l[i]? = some a → l[j]? = some b → f a = true → f b = true →
      2 ≤ l.countP f := by
  intro l
  induction l with
  | nil => intro i j a b _ h; simp at h
  | cons x xs ih =>
    intro i j a b hij hi hj fa fb
    cases i with
    | zero =>
      cases j with
      | zero => exact absurd rfl hij
      | succ m =>
        simp only [List.getElem?_cons_zero, Option.some.injEq] at hi
        subst hi
        simp only [List.getElem?_cons_succ] at hj
        have hmem : b ∈ xs := List.getElem?_mem hj
        have hpos : 0 < xs.countP f := List.countP_pos_iff.mpr ⟨b, hmem, fb⟩
        simp only [List.countP_cons, fa, if_true]
        omega
    | succ n =>
      cases j with
      | zero =>
        simp only [List.getElem?_cons_zero, Option.some.injEq] at hj
        subst hj
        simp only [List.getElem?_cons_succ] at hi
        have hmem : a ∈ xs := List.getElem?_mem hi
        have hpos : 0 < xs.countP f := List.countP_pos_iff.mpr ⟨a, hmem, fa⟩
        simp only [List.countP_cons, fb, if_true]
        omega
      | succ m =>
        simp only [List.getElem?_cons_succ] at hi hj
        have := ih n m a b (fun h => hij (congrArg Nat.succ h)) hi hj fa fb
        simp only [List.countP_cons]
        omega

/-- The invariant holds initially. -/
theorem ginv_init (n : Nat) : GInv (initSys n) := by
  refine ⟨?_, ?_, ?_, ?_⟩
  · have h0 : numHolding (initSys n) = 0 := by
      simp only [numHolding, initSys]
      apply List.countP_eq_zero.mpr
      intro p hp
      have hrep := List.eq_of_mem_replicate hp
      subst hrep
      simp
    rw [h0]
    simp [initSys]
  · intro r hr; simp [initSys] at hr
  · simp [initSys]
  · intro i c h
    simp only [initSys] at h
    rcases List.getElem?_eq_some.mp h with ⟨hlt, hval⟩
    have hrep := List.getElem_replicate GPhase.idle (by simpa using hlt : i < (List.replicate n GPhase.idle).length)
    simp_all

/-- Each step preserves the invariant. -/
theorem ginv_step {s t : GSys} (hInv : GInv s) (hstep : GStep s t) : GInv t := by
  obtain ⟨h1, h2, h3, h4⟩ := hInv
  obtain ⟨i, _hi, hmove⟩ := List.mem_flatMap.mp hstep
  cases hph : s.reqs[i]? with
  | none => rw [movesFor, hph] at hmove; simp at hmove
  | some p =>
    rw [movesFor, hph] at hmove
    cases p with
    | idle =>
      by_cases hc : s.count = 1
      · rw [if_pos hc] at hmove
        simp only [List.mem_singleton] at hmove
        subst hmove
        have hlt : i < s.reqs.length := (List.getElem?_eq_some.mp hph).1
        have hbal := countP_set_balance (fun p => p == GPhase.holding) s.reqs i
          GPhase.idle GPhase.holding hph
        have hnh : numHolding s = 0 := by omega
        refine ⟨?_, ?_, h3, ?_⟩
        · simp only [numHolding] at hnh ⊢
          simp only [numHolding] at hbal
          simp at hbal
          omega
        · intro r hr
          have hrw := h2 r hr
          have hne : i ≠ r := by
            intro he; rw [he] at hph; rw [hph] at hrw; simp at hrw
          simpa [List.getElem?_set_ne hne] using hrw
        · intro j c hj
          by_cases hij : i = j
          · subst hij
            rw [List.getElem?_set_self hlt] at hj; simp at hj
          · rw [List.getElem?_set_ne hij] at hj
            exact h4 j c hj
      · rw [if_neg hc] at hmove
        simp only [List.mem_singleton] at hmove
        subst hmove
        have hlt : i < s.reqs.length := (List.getElem?_eq_some.mp hph).1
        have hbal := countP_set_balance (fun p => p == GPhase.holding) s.reqs i
          GPhase.idle GPhase.waiting hph
        refine ⟨?_, ?_, ?_, ?_⟩
        · simp only [numHolding] at h1 ⊢
          simp only [numHolding] at hbal
          simp at hbal
          omega
        · intro r hr
          rcases List.mem_append.mp hr with hr | hr
          · have hrw := h2 r hr
            have hne : i ≠ r := by
              intro he; rw [he] at hph; rw [hph] at hrw; simp at hrw
            simpa [List.getElem?_set_ne hne] using hrw
          · simp only [List.mem_singleton] at hr
            subst hr
            simp [List.getElem?_set_self hlt]
        · rw [List.nodup_append]
          refine ⟨h3, List.nodup_singleton i, ?_⟩
          intro a ha hai
          simp only [List.mem_singleton] at hai
          subst hai
          have := h2 a ha
          rw [hph] at this
          simp at this
        · intro j c hj
          by_cases hij : i = j
          · subst hij
            rw [List.getElem?_set_self hlt] at hj; simp at hj
          · rw [List.getElem?_set_ne hij] at hj
            exact h4 j c hj
    | waiting => simp at hmove
    | holding =>
      simp only [List.mem_map] at hmove
      obtain ⟨code, hcode, ht⟩ := hmove
      have hlt : i < s.reqs.length := (List.getElem?_eq_some.mp hph).1
      have hmem : GPhase.holding ∈ s.reqs := List.getElem?_mem hph
      have hpos : 0 < numHolding s := by
        apply List.countP_pos_iff.mpr
        exact ⟨GPhase.holding, hmem, by simp⟩
      have hcount : s.count = 0 ∧ numHolding s = 1 := by omega
      have hbal := countP_set_balance (fun p => p == GPhase.holding) s.reqs i
        GPhase.holding (GPhase.done code) hph
      have hnh1 : (s.reqs.set i (GPhase.done code)).countP
          (fun p => p == GPhase.holding) = 0 := by
        simp only [numHolding] at hcount
        simp at hbal
        omega
      cases hq : s.queue with
      | nil =>
        rw [hq] at ht
        simp only [releaseSlot] at ht
        subst ht
        refine ⟨?_, ?_, ?_, ?_⟩
        · simp only [numHolding, hnh1]
          omega
        · intro r hr; simp at hr
        · simp
        · intro j c hj
          by_cases hij : i = j
          · subst hij
            rw [List.getElem?_set_self hlt] at hj
            simp only [Option.some.injEq, GPhase.done.injEq] at hj
            subst hj
            exact hcode
          · rw [List.getElem?_set_ne hij] at hj
            exact h4 j c hj
      | cons hd tl =>
        rw [hq] at ht
        simp only [releaseSlot] at ht
        subst ht
        have hhd : s.reqs[hd]? = some GPhase.waiting := h2 hd (by rw [hq]; simp)
        have hhdlt : hd < s.reqs.length := (List.getElem?_eq_some.mp hhd).1
        have hhdne : i ≠ hd := by
          intro he; rw [← he] at hhd; rw [hph] at hhd; simp at hhd
        have hhd1 : (s.reqs.set i (GPhase.done code))[hd]? = some GPhase.waiting := by
          rw [List.getElem?_set_ne hhdne]; exact hhd
        have hbal2 := countP_set_balance (fun p => p == GPhase.holding)
          (s.reqs.set i (GPhase.done code)) hd GPhase.waiting GPhase.holding hhd1
        refine ⟨?_, ?_, ?_, ?_⟩
        · simp only [numHolding]
          simp only [hnh1] at hbal2
          simp at hbal2
          omega
        · intro r hr
          have hrq : r ∈ s.queue := by rw [hq]; simp [hr]
          have hrw := h2 r hrq
          have hrne1 : i ≠ r := by
            intro he; rw [← he] at hrw; rw [hph] at hrw; simp at hrw
          have hrne2 : hd ≠ r := by
            intro he
            rw [hq] at h3
            rcases List.nodup_cons.mp h3 with ⟨hnm, _⟩
            exact hnm (he ▸ hr)
          rw [List.getElem?_set_ne hrne2, List.getElem?_set_ne hrne1]
          exact hrw
        · rw [hq] at h3
          exact (List.nodup_cons.mp h3).2
        · intro j c hj
          by_cases hjhd : hd = j
          · subst hjhd
            rw [List.getElem?_set_self (by simpa using hhdlt)] at hj
            simp at hj
          · rw [List.getElem?_set_ne hjhd] at hj
            by_cases hij : i = j
            · subst hij
              rw [List.getElem?_set_self hlt] at hj
              simp only [Option.some.injEq, GPhase.done.injEq] at hj
              subst hj
              exact hcode
            · rw [List.getElem?_set_ne hij] at hj
              exact h4 j c hj
    | done c => simp at hmove

/-- The invariant holds in every reachable state. -/
theorem ginv_reach {s t : GSys} (hInv : GInv s) (h : GReach s t) : GInv t := by
  induction h with
  | refl => exact hInv
  | tail _ hstep ih => exact ginv_step ih hstep

/-! ## Claim theorems -/

/-- C2: if the vCard-file upload throws, variant 2's vCard route answers with
an error and never reaches its `client.save()`: the collection — in
particular the client's `status` and `vcardUrl` — is exactly as before the
call. -/
theorem vcard_upload_failure_no_mutation (db : Db) (id : Nat) (rand : String) :
    (vcard2 db id rand UploadOutcome.err).1 = db ∧
    resOk (vcard2 db id rand UploadOutcome.err).2 = false ∧
    (findById (vcard2 db id rand UploadOutcome.err).1 id).map Client.status
      = (findById db id).map Client.status ∧
    (findById (vcard2 db id rand UploadOutcome.err).1 id).map Client.vcardUrl
      = (findById db id).map Client.vcardUrl := by
  have hdb : (vcard2 db id rand UploadOutcome.err).1 = db ∧
      resOk (vcard2 db id rand UploadOutcome.err).2 = false := by
    simp only [vcard2]
    constructor
    · split
      · rfl
      · split
        · rfl
        · rfl
    · split
      · rfl
      · split
        · rfl
        · rfl
  exact ⟨hdb.1, hdb.2, by rw [hdb.1], by rw [hdb.1]⟩


/-- C7 (amended): variant 1's status route rejects an invalid status, a
missing notes field and notes shorter than 5 characters with a 400 and an
untouched collection; variant 2's status route rejects only an invalid
status value — with a valid status it succeeds even when notes are missing,
overwriting the status. -/
theorem change_status_validation :
    (∀ (db : Db) (id : Nat) (ns : String) (notes : Option String),
      (["Active", "Disabled", "Deleted"].contains ns) = false →
      status1 db id ns notes = (db, Res.fail 400)) ∧
    (∀ (db : Db) (id : Nat) (ns : String),
      status1 db id ns none = (db, Res.fail 400)) ∧
    (∀ (db : Db) (id : Nat) (ns : String) (n : String), n.length < 5 →
      status1 db id ns (some n) = (db, Res.fail 400)) ∧
    (∀ (db : Db) (id : Nat) (ns : String) (notes : Option String),
      (["Pending", "Active", "Suspended", "Deleted"].contains ns) = false →
      status2 db id ns notes = (db, Res.fail 400)) ∧
    (∀ (db : Db) (id : Nat) (ns : String) (c0 : Client),
      (["Pending", "Active", "Suspended", "Deleted"].contains ns) = true →
      findById db id = some c0 →
      status2 db id ns none =
        (saveClient db { c0 with
            status := ns
            history := c0.history ++
              [{ action := "STATUS_CHANGED", notes := none, actor := "admin" }] },
         Res.ok { c0 with
            status := ns
            history := c0.history ++
              [{ action := "STATUS_CHANGED", notes := none, actor := "admin" }] })) := by
  refine ⟨?_, ?_, ?_, ?_, ?_⟩
  · intro db id ns notes h
    simp only [status1, h]
    rfl
  · intro db id ns
    simp only [status1]
    split
    · rfl
    · rfl
  · intro db id ns n h
    simp only [status1]
    split
    · rfl
    · have hcond : (n = "" || decide (n.length < 5)) = true := by
        simp [h]
      simp only [hcond, if_true]
  · intro db id ns notes h
    simp only [status2, h]
    rfl
  · intro db id ns c0 h1 h2
    simp only [status2, h1, h2, Bool.not_true]
    rfl

/-- C7 counterexample: variant 2's status route accepts a call with no notes
at all — it succeeds and overwrites the status, where the claim demands a
validation rejection with an unchanged record. -/
theorem change_status_missing_notes_counterexample :
    resOk (status2 demoDb 1 "Active" none).2 = true ∧
    (findById (status2 demoDb 1 "Active" none).1 1).map Client.status = some "Active" ∧
    demoClient.status = "Pending" := by decide

/-- C7 witness: the validation behaviour instantiated on the demo client —
variant 1 rejects a bad status, missing notes and 3-character notes, while
variant 2 rejects only the bad status and succeeds without notes. -/
theorem change_status_validation_witness :
    status1 demoDb 1 "Nonsense" (some "valid notes") = (demoDb, Res.fail 400) ∧
    status1 demoDb 1 "Disabled" none = (demoDb, Res.fail 400) ∧
    status1 demoDb 1 "Disabled" (some "abc") = (demoDb, Res.fail 400) ∧
    status2 demoDb 1 "Nonsense" (some "valid notes") = (demoDb, Res.fail 400) ∧
    status2 demoDb 1 "Active" none
      = (saveClient demoDb { demoClient with
            status := "Active"
            history := demoClient.history ++
              [{ action := "STATUS_CHANGED", notes := none, actor := "admin" }] },
         Res.ok { demoClient with
            status := "Active"
            history := demoClient.history ++
              [{ action := "STATUS_CHANGED", notes := none, actor := "admin" }] }) := by
  refine ⟨?_, ?_, ?_, ?_, ?_⟩
  · exact change_status_validation.1 demoDb 1 "Nonsense" (some "valid notes") (by decide)
  · exact change_status_validation.2.1 demoDb 1 "Disabled"
  · exact change_status_validation.2.2.1 demoDb 1 "Disabled" "abc" (by decide)
  · exact change_status_validation.2.2.2.1 demoDb 1 "Nonsense" (some "valid notes") (by decide)
  · exact change_status_validation.2.2.2.2 demoDb 1 "Active" demoClient (by decide) (by decide)

/-- C4: in every reachable state of the render gate at most one request is
inside the critical section, the slot is conserved (`count + holders = 1`,
so a finished request has always given the slot back), and once every
request has finished — normally or on the error path — the gate is free
again, never permanently held. -/
theorem render_gate_mutex {n : Nat} {s : GSys} (h : GReach (initSys n) s) :
    (∀ (i j : Nat), s.reqs[i]? = some GPhase.holding →
      s.reqs[j]? = some GPhase.holding → i = j) ∧
    s.count + numHolding s = 1 ∧
    ((∀ p ∈ s.reqs, ∃ c, p = GPhase.done c) → s.count = 1) := by
  have hInv := ginv_reach (ginv_init n) h
  obtain ⟨h1, _, _, _⟩ := hInv
  have h1' : s.count + s.reqs.countP (fun p => p == GPhase.holding) = 1 := h1
  refine ⟨?_, h1, ?_⟩
  · intro i j hi hj
    by_contra hne
    have h2 := countP_two_of_ne (fun p => p == GPhase.holding) s.reqs i j
      GPhase.holding GPhase.holding hne hi hj (by simp) (by simp)
    omega
  · intro hdone
    have h0 : numHolding s = 0 := by
      apply List.countP_eq_zero.mpr
      intro p hp
      obtain ⟨c, hc⟩ := hdone p hp
      subst hc
      simp
    omega


/-- A reachable run of two PDF requests: the first acquires and streams, the
second acquires after the release and ends in a 404. -/
theorem gateDemoEnd_reachable : GReach (initSys 2) gateDemoEnd := by
  have s1 : GStep (initSys 2)
      { count := 0, queue := [], reqs := [GPhase.holding, GPhase.idle] } := by decide
  have s2 : GStep { count := 0, queue := [], reqs := [GPhase.holding, GPhase.idle] }
      { count := 1, queue := [], reqs := [GPhase.done 200, GPhase.idle] } := by decide
  have s3 : GStep { count := 1, queue := [], reqs := [GPhase.done 200, GPhase.idle] }
      { count := 0, queue := [], reqs := [GPhase.done 200, GPhase.holding] } := by decide
  have s4 : GStep { count := 0, queue := [], reqs := [GPhase.done 200, GPhase.holding] }
      gateDemoEnd := by decide
  exact Relation.ReflTransGen.head s1 (Relation.ReflTransGen.head s2
    (Relation.ReflTransGen.head s3 (Relation.ReflTransGen.head s4 Relation.ReflTransGen.refl)))

/-- C4 witness: the invariant instantiated at the end of the concrete
two-request run — the slot is free again after both exits. -/
theorem render_gate_mutex_witness :
    gateDemoEnd.count + numHolding gateDemoEnd = 1 :=
  (render_gate_mutex gateDemoEnd_reachable).2.1

/-- C3 (amended): the route's admission has no timeout and no busy error —
in every reachable state no request has ever answered 503 (the possible
response statuses are 200, 404 and 500), and a request parked in the queue
is granted the slot exactly when the holder releases: every finishing transition of
the holder hands the slot to the queue head. -/
theorem render_gate_unbounded_no_busy {n : Nat} {s : GSys} (h : GReach (initSys n) s) :
    (∀ (i : Nat), s.reqs[i]? ≠ some (GPhase.done 503)) ∧
    (∀ (i hd : Nat) (tl : List Nat), s.reqs[i]? = some GPhase.holding →
      s.queue = hd :: tl →
      ∀ u ∈ movesFor s i, u.reqs[hd]? = some GPhase.holding ∧ u.queue = tl) := by
  have hInv := ginv_reach (ginv_init n) h
  obtain ⟨_, h2, _, h4⟩ := hInv
  constructor
  · intro i heq
    have := h4 i 503 heq
    simp [finishCodes] at this
  · intro i hd tl hhold hq u hu
    rw [movesFor, hhold] at hu
    simp only [List.mem_map] at hu
    obtain ⟨code, _, hu⟩ := hu
    subst hu
    rw [hq]
    simp only [releaseSlot]
    have hhd := h2 hd (by rw [hq]; simp)
    have hlt : hd < s.reqs.length := (List.getElem?_eq_some.mp hhd).1
    constructor
    · rw [List.getElem?_set_self (by simpa using hlt)]
    · trivial

/-- C3 witness: in the reachable busy state (one holder, one queued waiter)
no 503 was ever produced. -/
theorem render_gate_unbounded_no_busy_witness :
    ({ count := 0, queue := [1], reqs := [GPhase.holding, GPhase.waiting] } : GSys).reqs[1]?
      ≠ some (GPhase.done 503) := by
  have s1 : GStep (initSys 2)
      { count := 0, queue := [], reqs := [GPhase.holding, GPhase.idle] } := by decide
  have s2 : GStep { count := 0, queue := [], reqs := [GPhase.holding, GPhase.idle] }
      { count := 0, queue := [1], reqs := [GPhase.holding, GPhase.waiting] } := by decide
  exact (render_gate_unbounded_no_busy
    (Relation.ReflTransGen.head s1
      (Relation.ReflTransGen.head s2 Relation.ReflTransGen.refl))).1 1



/-- C3 counterexample: exhaustive check of the two-request gate — requests
do wait, and no reachable state contains a 503 response, contradicting the
claimed bounded-wait-then-503 behaviour. -/
theorem render_gate_no_timeout_counterexample : gateCheck = true := by decide

/-- A slug returned by the variant-1 probe loop is not yet stored. -/
theorem findFreeSlug_not_mem {existing : List String} {base s : String}
    (h : findFreeSlug existing base = some s) : s ∉ existing := by
  have hp := List.find?_some h
  simp at hp
  exact hp

/-- When the base slug is already stored, the probe loop's result carries a
numeric suffix. -/
theorem findFreeSlug_suffix {existing : List String} {base s : String}
    (hbase : base ∈ existing)
    (h : findFreeSlug existing base = some s) :
    ∃ k : Nat, s = base ++ "-" ++ toString (k + 1) := by
  unfold findFreeSlug slugCandidates at h
  rw [List.find?_cons_of_neg] at h
  · have hm := List.mem_of_find?_eq_some h
    simp only [List.mem_map, List.mem_range] at hm
    obtain ⟨k, _, hk⟩ := hm
    exact ⟨k, hk.symm⟩
  · simp [hbase]

/-- When the base slug is still free, the probe loop returns it directly. -/
theorem findFreeSlug_base {existing : List String} {base : String}
    (hbase : base ∉ existing) :
    findFreeSlug existing base = some base := by
  unfold findFreeSlug slugCandidates
  rw [List.find?_cons_of_pos]
  simp [hbase]

/-- C1: a persisted variant-1 `Create` yields `status = "Pending"` and a
non-empty slug distinct from every stored one, and a second successful
`Create` with the same display name yields a different slug, disambiguated
by a numeric suffix on the base slug. -/
theorem create_pending_unique_slug
    {db : Db} {req : Create1Req} {newId : Nat} {db1 : Db} {c1 : Client}
    (h : create1 db req newId = (db1, Res.ok c1)) :
    c1.status = "Pending" ∧ c1.slug ≠ "" ∧ c1.slug ∉ slugsOf db ∧
    db1 = db ++ [c1] ∧
    (∀ (req2 : Create1Req) (id2 : Nat) (db2 : Db) (c2 : Client),
      req2.fullName = req.fullName →
      create1 db1 req2 id2 = (db2, Res.ok c2) →
      c2.slug ≠ c1.slug ∧
      ∃ k : Nat, c2.slug = slugify1 req.fullName ++ "-" ++ toString (k + 1)) := by
  simp only [create1] at h
  split at h
  · exact absurd (congrArg Prod.snd h) (by simp)
  · rename_i slug hfs
    split at h
    · rename_i hreq
      split at h
      · exact absurd (congrArg Prod.snd h) (by simp)
      · rename_i hcont
        have hfst := congrArg Prod.fst h
        have hsnd := congrArg Prod.snd h
        simp only [Res.ok.injEq] at hsnd
        simp only at hfst
        subst hsnd
        have hslugok : (mkClient1 req slug newId).slug ≠ "" := by
          simp only [requiredOk1, Bool.and_eq_true, decide_eq_true_eq] at hreq
          exact hreq.2
        have hnotmem : (mkClient1 req slug newId).slug ∉ slugsOf db := by
          simp only [Bool.not_eq_true] at hcont
          simpa using hcont
        refine ⟨rfl, hslugok, hnotmem, hfst.symm, ?_⟩
        intro req2 id2 db2 c2 hname h2
        simp only [create1] at h2
        split at h2
        · exact absurd (congrArg Prod.snd h2) (by simp)
        · rename_i slug2 hfs2
          split at h2
          · rename_i hreq2
            split at h2
            · exact absurd (congrArg Prod.snd h2) (by simp)
            · rename_i hcont2
              have hsnd2 := congrArg Prod.snd h2
              simp only [Res.ok.injEq] at hsnd2
              subst hsnd2
              rw [hname] at hfs2
              have hnot2 : (mkClient1 req2 slug2 id2).slug ∉ slugsOf db1 := by
                simp only [Bool.not_eq_true] at hcont2
                simpa using hcont2
              have hmem1 : slug ∈ slugsOf db1 := by
                rw [← hfst]
                simp [slugsOf, mkClient1]
              have hbase1 : slugify1 req.fullName ∈ slugsOf db1 := by
                by_cases hb : slugify1 req.fullName ∈ slugsOf db
                · rw [← hfst]
                  simp only [slugsOf, List.map_append, List.mem_append]
                  left
                  simpa [slugsOf] using hb
                · have hfb := findFreeSlug_base hb
                  rw [hfb] at hfs
                  have hbs : slugify1 req.fullName = slug := by
                    injection hfs
                  rw [hbs]
                  exact hmem1
              have hne : (mkClient1 req2 slug2 id2).slug ≠ (mkClient1 req slug newId).slug :=
                fun he => hnot2 (he ▸ hmem1)
              have hsuffix := findFreeSlug_suffix hbase1 hfs2
              exact ⟨hne, hsuffix⟩
          · exact absurd (congrArg Prod.snd h2) (by simp)
    · exact absurd (congrArg Prod.snd h) (by simp)


/-- C1 witness: running the create route twice with the same display name on
an empty collection persists `"jane-doe"` with status `"Pending"` and then
`"jane-doe-1"`. -/
theorem create_pending_unique_slug_witness :
    (create1 [] demoCreateReq 1).2 = Res.ok (mkClient1 demoCreateReq "jane-doe" 1) ∧
    (mkClient1 demoCreateReq "jane-doe" 1).status = "Pending" ∧
    (mkClient1 demoCreateReq "jane-doe" 1).slug ≠ "" ∧
    (mkClient1 demoCreateReq "jane-doe" 1).slug ∉ slugsOf [] := by
  have h : create1 [] demoCreateReq 1
      = ([mkClient1 demoCreateReq "jane-doe" 1], Res.ok (mkClient1 demoCreateReq "jane-doe" 1)) := by
    decide
  have hc := create_pending_unique_slug h
  exact ⟨by rw [h], hc.1, hc.2.1, hc.2.2.1⟩

/-- C5 (amended): the vCard route generates a slug only when the stored one
is blank, and updates that leave the display name unchanged (or, in variant
1, carry no `slug` body key) preserve the slug — but variant 2's Update
route regenerates and overwrites an existing slug whenever the request's
`fullName` is present, non-empty and different from the stored name. -/
theorem slug_update_behavior :
    (∀ (db : Db) (id : Nat) (rand : String) (upload : UploadOutcome) (c0 : Client)
        (db' : Db) (c' : Client),
      findById db id = some c0 → trimS c0.slug ≠ "" →
      vcard2 db id rand upload = (db', Res.ok c') → c'.slug = c0.slug) ∧
    (∀ (db : Db) (id : Nat) (req : Update2Req) (rand : String) (c0 : Client)
        (db' : Db) (c' : Client),
      findById db id = some c0 →
      (req.fullName = none ∨ req.fullName = some c0.fullName) →
      update2 db id req rand = (db', Res.ok c') → c'.slug = c0.slug) ∧
    (∀ (db : Db) (id : Nat) (req : Update2Req) (rand : String) (c0 : Client) (fn : String)
        (db' : Db) (c' : Client),
      findById db id = some c0 → req.fullName = some fn → fn ≠ "" → fn ≠ c0.fullName →
      update2 db id req rand = (db', Res.ok c') →
      c'.slug = generateUniqueSlug (slugsOf db) fn rand) ∧
    (∀ (db : Db) (id : Nat) (req : Update1Req) (c0 : Client) (db' : Db) (c' : Client),
      findById db id = some c0 → req.slug = none →
      update1 db id req = (db', Res.ok c') → c'.slug = c0.slug) := by
  refine ⟨?_, ?_, ?_, ?_⟩
  · intro db id rand upload c0 db' c' hfind hslug h
    have hne : c0.slug ≠ "" := by
      intro he
      exact hslug (by rw [he]; rfl)
    have hcond : (decide (c0.slug = "") || decide (trimS c0.slug = "")) = false := by
      simp [hne, hslug]
    simp only [vcard2, hfind, hcond] at h
    split at h
    · exact absurd (congrArg Prod.snd h) (by simp)
    · split at h
      · exact absurd (congrArg Prod.snd h) (by simp)
      · have hc := congrArg Prod.snd h
        simp only [Res.ok.injEq] at hc
        subst hc
        rfl
  · intro db id req rand c0 db' c' hfind hfn h
    rcases hfn with hfn | hfn
    · simp only [update2, hfind, hfn] at h
      split at h
      · split at h
        · exact absurd (congrArg Prod.snd h) (by simp)
        · have hc := congrArg Prod.snd h
          simp only [Res.ok.injEq] at hc
          subst hc
          rfl
      · exact absurd (congrArg Prod.snd h) (by simp)
    · simp only [update2, hfind, hfn, ne_eq] at h
      split at h
      · rename_i hC
        simp at hC
      · split at h
        · split at h
          · exact absurd (congrArg Prod.snd h) (by simp)
          · have hc := congrArg Prod.snd h
            simp only [Res.ok.injEq] at hc
            subst hc
            rfl
        · exact absurd (congrArg Prod.snd h) (by simp)
  · intro db id req rand c0 fn db' c' hfind hfn hne hdiff h
    simp only [update2, hfind, hfn, ne_eq] at h
    split at h
    · split at h
      · split at h
        · exact absurd (congrArg Prod.snd h) (by simp)
        · have hc := congrArg Prod.snd h
          simp only [Res.ok.injEq] at hc
          subst hc
          rfl
      · exact absurd (congrArg Prod.snd h) (by simp)
    · rename_i hC
      exact absurd (by simp [hne, hdiff]) hC
  · intro db id req c0 db' c' hfind hslug h
    simp only [update1, hfind] at h
    split at h
    · split at h
      · exact absurd (congrArg Prod.snd h) (by simp)
      · have hc := congrArg Prod.snd h
        simp only [Res.ok.injEq] at hc
        subst hc
        simp [assignT, hslug]
    · exact absurd (congrArg Prod.snd h) (by simp)


/-- C5 counterexample: a stored client with the non-empty slug `"jane-doe"`
is renamed through variant 2's Update, and the persisted slug becomes
`"john-smith"` — an existing slug is regenerated and overwritten, where the
claim demands immutability. -/
theorem slug_overwritten_counterexample :
    demoClient.slug = "jane-doe" ∧
    resOk (update2 demoDb 1 demoRenameReq "zzz").2 = true ∧
    (findById (update2 demoDb 1 demoRenameReq "zzz").1 1).map Client.slug
      = some "john-smith" := by decide

/-- C5 witness: the rename's persisted slug is exactly the slug regenerated
from the new display name. -/
theorem slug_update_behavior_witness :
    demoRenamed.slug = generateUniqueSlug (slugsOf demoDb) "John Smith" "zzz" := by
  have h : update2 demoDb 1 demoRenameReq "zzz"
      = ([demoRenamed], Res.ok demoRenamed) := by decide
  exact slug_update_behavior.2.2.1 demoDb 1 demoRenameReq "zzz" demoClient "John Smith"
    [demoRenamed] demoRenamed (by decide) (by decide) (by decide) (by decide) h

/-- The escape of a character is never the empty list. -/
theorem escChar_ne_nil (c : Char) : escChar c ≠ [] := by
  unfold escChar
  repeat' split
  all_goals simp

/-- Escaping yields the empty list only for the empty list. -/
theorem vcardEscapeL_nil_iff {cs : List Char} : vcardEscapeL cs = [] ↔ cs = [] := by
  cases cs with
  | nil => simp [vcardEscapeL]
  | cons c cs =>
    simp only [vcardEscapeL]
    constructor
    · intro h
      exact absurd (List.append_eq_nil.mp h).1 (escChar_ne_nil c)
    · intro h
      exact absurd h (by simp)

/-- The escape/unescape round trip at the character-list level. -/
theorem vcard_unescapeL_escapeL (cs : List Char) :
    vcardUnescapeL (vcardEscapeL cs) = cs := by
  induction cs with
  | nil => rfl
  | cons c cs ih =>
    by_cases h1 : c = '\\'
    · subst h1
      have hesc : vcardEscapeL ('\\' :: cs) = '\\' :: '\\' :: vcardEscapeL cs := by
        simp [vcardEscapeL, escChar]
      rw [hesc]
      simp only [vcardUnescapeL]
      simp [ih]
    · by_cases h2 : c = '\n'
      · subst h2
        have hesc : vcardEscapeL ('\n' :: cs) = '\\' :: 'n' :: vcardEscapeL cs := by
          simp [vcardEscapeL, escChar]
        rw [hesc]
        simp only [vcardUnescapeL]
        simp [ih]
      · by_cases h3 : c = ','
        · subst h3
          have hesc : vcardEscapeL (',' :: cs) = '\\' :: ',' :: vcardEscapeL cs := by
            simp [vcardEscapeL, escChar]
          rw [hesc]
          simp only [vcardUnescapeL]
          simp [ih]
        · by_cases h4 : c = ';'
          · subst h4
            have hesc : vcardEscapeL (';' :: cs) = '\\' :: ';' :: vcardEscapeL cs := by
              simp [vcardEscapeL, escChar]
            rw [hesc]
            simp only [vcardUnescapeL]
            simp [ih]
          · have hesc : vcardEscapeL (c :: cs) = c :: vcardEscapeL cs := by
              simp [vcardEscapeL, escChar, h1, h2, h3, h4]
            rw [hesc]
            cases hE : vcardEscapeL cs with
            | nil =>
              have hnil : cs = [] := vcardEscapeL_nil_iff.mp hE
              subst hnil
              rfl
            | cons d ds =>
              simp only [vcardUnescapeL]
              rw [if_neg h1, ← hE, ih]

/-- The escape/unescape round trip at the string level. -/
theorem vcard_unescape_escape (s : String) : vcardUnescape (vcardEscape s) = s := by
  obtain ⟨l⟩ := s
  simp [vcardEscape, vcardUnescape, vcard_unescapeL_escapeL]

/-- Escaped values contain no raw line break, so the line structure of the
payload stays intact. -/
theorem vcardEscapeL_no_newline (cs : List Char) : '\n' ∉ vcardEscapeL cs := by
  induction cs with
  | nil => simp [vcardEscapeL]
  | cons c cs ih =>
    simp only [vcardEscapeL, List.mem_append]
    rintro (h | h)
    · unfold escChar at h
      repeat' split at h
      all_goals simp_all [eq_comm]
    · exact ih h

/-- A key absent from the left part is looked up in the right part. -/
theorem findProp_append {k : String} {l₁ l₂ : List (String × String)}
    (h : findProp k l₁ = none) : findProp k (l₁ ++ l₂) = findProp k l₂ := by
  induction l₁ with
  | nil => simp
  | cons p ps ih =>
    simp only [findProp] at h
    split at h
    · exact absurd h (by simp)
    · rename_i hk
      simp only [List.cons_append, findProp]
      rw [if_neg hk]
      exact ih h

/-- A key found in the left part wins over the right part. -/
theorem findProp_append_left {k : String} {l₁ l₂ : List (String × String)} {v : String}
    (h : findProp k l₁ = some v) : findProp k (l₁ ++ l₂) = some v := by
  induction l₁ with
  | nil => simp [findProp] at h
  | cons p ps ih =>
    simp only [findProp] at h
    simp only [List.cons_append, findProp]
    split at h
    · rename_i hk
      rw [if_pos hk]
      exact h
    · rename_i hk
      rw [if_neg hk]
      exact ih h

/-- A key absent from both parts is absent from the concatenation. -/
theorem findProp_append_none {k : String} {l₁ l₂ : List (String × String)}
    (h1 : findProp k l₁ = none) (h2 : findProp k l₂ = none) :
    findProp k (l₁ ++ l₂) = none := by
  rw [findProp_append h1]
  exact h2

/-- An optional property with a different name never answers a lookup. -/
theorem findProp_optProp_ne {k kp v : String} (h : kp ≠ k) :
    findProp k (optProp v kp) = none := by
  unfold optProp
  split
  · rfl
  · simp [findProp, h]

/-- The payload's `LABEL;TYPE=HOME` line carries exactly the escaped address
whenever an address is set. -/
theorem vcardProps_label {v : VCardObj} (h : v.homeAddressLabel ≠ "") :
    findProp "LABEL;TYPE=HOME" (vcardProps v)
      = some (vcardEscape v.homeAddressLabel) := by
  unfold vcardProps
  have hbase : findProp "LABEL;TYPE=HOME"
      [("N", vcardEscape v.lastName ++ ";" ++ vcardEscape v.firstName ++ ";;;"),
       ("FN", vcardEscape v.formattedName)] = none := by
    simp [findProp]
  have hPRE : findProp "LABEL;TYPE=HOME"
      ([("N", vcardEscape v.lastName ++ ";" ++ vcardEscape v.firstName ++ ";;;"),
        ("FN", vcardEscape v.formattedName)]
        ++ optProp v.organization "ORG"
        ++ optProp v.cardTitle "TITLE"
        ++ optProp v.cellPhone "TEL;TYPE=CELL"
        ++ optProp v.workPhone "TEL;TYPE=WORK"
        ++ optProp v.otherPhone "TEL;TYPE=OTHER"
        ++ optProp v.email "EMAIL"
        ++ optProp v.workEmail "EMAIL;TYPE=WORK"
        ++ optProp v.otherEmail "EMAIL;TYPE=OTHER") = none := by
    refine findProp_append_none (findProp_append_none (findProp_append_none
      (findProp_append_none (findProp_append_none (findProp_append_none
      (findProp_append_none (findProp_append_none hbase ?_) ?_) ?_) ?_) ?_) ?_) ?_) ?_
    all_goals exact findProp_optProp_ne (by decide)
  apply findProp_append_left
  apply findProp_append_left
  apply findProp_append_left
  apply findProp_append_left
  rw [findProp_append hPRE]
  simp [optProp, findProp, h]

/-- C9 (amended): the escaping applied to the emitted address field is a
bijection a conformant parser inverts — the address round-trips exactly and
escaped values contain no raw line break — but the `bio` field is never
emitted at all: the payload is entirely independent of it, so no parser can
recover a bio from the output. -/
theorem vcard_escaping_roundtrip_bio_dropped :
    (∀ s : String, vcardUnescape (vcardEscape s) = s) ∧
    (∀ s : String, '\n' ∉ (vcardEscape s).data) ∧
    (∀ c : Client, c.address ≠ "" →
      (findProp "LABEL;TYPE=HOME" (vcardProps (buildVcard c))).map vcardUnescape
        = some c.address) ∧
    (∀ (c : Client) (b : String),
      generateVcardContent { c with bio := b } = generateVcardContent c) := by
  refine ⟨vcard_unescape_escape, ?_, ?_, ?_⟩
  · intro s
    exact vcardEscapeL_no_newline s.data
  · intro c h
    have hlab : (buildVcard c).homeAddressLabel ≠ "" := h
    rw [vcardProps_label hlab]
    show Option.map vcardUnescape (some (vcardEscape c.address)) = some c.address
    simp [vcard_unescape_escape]
  · intro c b
    rfl



/-- C9 counterexample: two records that differ only in `bio` produce
byte-identical payloads — the bio (with its comma, semicolon and line break)
is not emitted escaped, it is not emitted at all, so no conformant parser
can recover it. -/
theorem vcard_bio_not_encoded_counterexample :
    demoBioA.bio ≠ demoBioB.bio ∧
    generateVcardContent demoBioA = generateVcardContent demoBioB := by decide


/-- C9 witness: the demo address containing a comma, a semicolon and a line
break round-trips through the payload's LABEL line. -/
theorem vcard_escaping_roundtrip_witness :
    (findProp "LABEL;TYPE=HOME" (vcardProps (buildVcard demoAddr))).map vcardUnescape
      = some demoAddr.address :=
  vcard_escaping_roundtrip_bio_dropped.2.2.1 demoAddr (by decide)


/-- C8: the encoder is a pure function of exactly the fields it reads — two
records agreeing on that projection encode byte-identically (whatever their
status, history, slug or bio), the outputs are independent of call order,
and the vCard operation never writes back into the encoder-read fields of
the stored record. -/
theorem vcard_encoder_pure :
    (∀ c₁ c₂ : Client, encProj c₁ = encProj c₂ →
      generateVcardContent c₁ = generateVcardContent c₂) ∧
    (∀ c₁ c₂ : Client,
      encodePair c₁ c₂ = ((encodePair c₂ c₁).2, (encodePair c₂ c₁).1)) ∧
    (∀ (db : Db) (id : Nat) (rand url : String) (c0 : Client) (db' : Db) (c' : Client),
      findById db id = some c0 →
      vcard2 db id rand (UploadOutcome.ok url) = (db', Res.ok c') →
      encProj c' = encProj c0 ∧ c'.bio = c0.bio) := by
  refine ⟨?_, ?_, ?_⟩
  · intro a b h
    simp only [encProj, List.cons.injEq, and_true] at h
    obtain ⟨h1, h2, h3, h4, h5, h6, h7, h8, h9, h10, h11, h12, h13, h14, h15⟩ := h
    show getFormattedString (buildVcard a) = getFormattedString (buildVcard b)
    have hb : buildVcard a = buildVcard b := by
      simp only [buildVcard]
      rw [h1, h2, h3, h4, h5, h6, h7, h8, h9, h10, h11, h12, h13, h14, h15]
    rw [hb]
  · intro a b
    rfl
  · intro db id rand url c0 db' c' hfind h
    simp only [vcard2, hfind] at h
    repeat' split at h
    all_goals have hc := congrArg Prod.snd h
    all_goals cases hc
    all_goals exact ⟨rfl, rfl⟩

/-- C8 witness: two concrete records differing only in bio and status agree
on the encoder projection, hence encode identically. -/
theorem vcard_encoder_pure_witness :
    generateVcardContent demoBioA
      = generateVcardContent { demoBioB with status := "Active" } :=
  vcard_encoder_pure.1 demoBioA { demoBioB with status := "Active" } (by decide)

/-- C6 (amended): every successful mutating operation appends exactly one
entry to the stored history, leaving the existing entries untouched and in
order — with two exceptions in variant 1: its Create appends none (the
persisted history is whatever the request body carried, empty by default),
and its Update preserves the old history only when the body carries no
`history` key, because it copies the whole request body onto the record. -/
theorem history_append_only :
    (∀ (db : Db) (req : Create1Req) (id : Nat) (db' : Db) (c' : Client),
      create1 db req id = (db', Res.ok c') → c'.history = req.history) ∧
    (∀ (db : Db) (req : Create2Req) (id : Nat) (rand : String) (db' : Db) (c' : Client),
      create2 db req id rand = (db', Res.ok c') →
      c'.history = req.history ++
        [{ action := "CLIENT_CREATED", notes := some "Initial form submission",
           actor := "client_submission" }]) ∧
    (∀ (db : Db) (id : Nat) (req : Update1Req) (c0 : Client) (db' : Db) (c' : Client),
      findById db id = some c0 → req.history = none →
      update1 db id req = (db', Res.ok c') →
      c'.history = c0.history ++
        [{ action := "CLIENT_UPDATED / SAVE_INFO",
           notes := some "Admin confirmed and saved client data.", actor := "admin" }]) ∧
    (∀ (db : Db) (id : Nat) (req : Update2Req) (rand : String) (c0 : Client)
        (db' : Db) (c' : Client),
      findById db id = some c0 →
      update2 db id req rand = (db', Res.ok c') →
      c'.history = c0.history ++
        [{ action := "CLIENT_UPDATED", notes := some "Admin saved info",
           actor := "admin" }]) ∧
    (∀ (db : Db) (id : Nat) (c0 : Client) (db' : Db) (c' : Client),
      findById db id = some c0 →
      vcard1 db id = (db', Res.ok c') →
      c'.history = c0.history ++
        [{ action := "VCARD_CREATED", notes := some "vCard and QR code generated.",
           actor := "admin" }]) ∧
    (∀ (db : Db) (id : Nat) (rand url : String) (c0 : Client) (db' : Db) (c' : Client),
      findById db id = some c0 →
      vcard2 db id rand (UploadOutcome.ok url) = (db', Res.ok c') →
      ∃ note, c'.history = c0.history ++
        [{ action := "VCARD_CREATED", notes := some note, actor := "admin" }]) ∧
    (∀ (db : Db) (id : Nat) (ns : String) (notes : Option String) (c0 : Client)
        (db' : Db) (c' : Client),
      findById db id = some c0 →
      status1 db id ns notes = (db', Res.ok c') →
      c'.history = c0.history ++
        [{ action := "STATUS_CHANGED to " ++ ns, notes := notes, actor := "admin" }]) ∧
    (∀ (db : Db) (id : Nat) (ns : String) (notes : Option String) (c0 : Client)
        (db' : Db) (c' : Client),
      findById db id = some c0 →
      status2 db id ns notes = (db', Res.ok c') →
      c'.history = c0.history ++
        [{ action := "STATUS_CHANGED", notes := notes, actor := "admin" }]) ∧
    (∀ (db : Db) (id : Nat) (notes : Option String) (c0 : Client) (db' : Db) (c' : Client),
      findById db id = some c0 →
      delete2 db id notes = (db', Res.ok c') →
      c'.history = c0.history ++
        [{ action := "CLIENT_DELETED", notes := notes, actor := "admin" }]) := by
  refine ⟨?_, ?_, ?_, ?_, ?_, ?_, ?_, ?_, ?_⟩
  · intro db req id db' c' h
    simp only [create1] at h
    repeat' split at h
    all_goals have hc := congrArg Prod.snd h
    all_goals cases hc
    all_goals rfl
  · intro db req id rand db' c' h
    simp only [create2] at h
    repeat' split at h
    all_goals have hc := congrArg Prod.snd h
    all_goals cases hc
    all_goals rfl
  · intro db id req c0 db' c' hfind hhist h
    simp only [update1, hfind, hhist] at h
    repeat' split at h
    all_goals have hc := congrArg Prod.snd h
    all_goals cases hc
    all_goals rfl
  · intro db id req rand c0 db' c' hfind h
    simp only [update2, hfind] at h
    repeat' split at h
    all_goals have hc := congrArg Prod.snd h
    all_goals cases hc
    all_goals rfl
  · intro db id c0 db' c' hfind h
    simp only [vcard1, hfind] at h
    repeat' split at h
    all_goals have hc := congrArg Prod.snd h
    all_goals cases hc
    all_goals rfl
  · intro db id rand url c0 db' c' hfind h
    simp only [vcard2, hfind] at h
    repeat' split at h
    all_goals have hc := congrArg Prod.snd h
    all_goals cases hc
    all_goals exact ⟨_, rfl⟩
  · intro db id ns notes c0 db' c' hfind h
    simp only [status1, hfind] at h
    repeat' split at h
    all_goals have hc := congrArg Prod.snd h
    all_goals cases hc
    all_goals rfl
  · intro db id ns notes c0 db' c' hfind h
    simp only [status2, hfind] at h
    repeat' split at h
    all_goals have hc := congrArg Prod.snd h
    all_goals cases hc
    all_goals rfl
  · intro db id notes c0 db' c' hfind h
    simp only [delete2, hfind] at h
    have hc := congrArg Prod.snd h
    simp only [Res.ok.injEq] at hc
    subst hc
    rfl


/-- C6 counterexample: a successful variant-1 Create persists a client whose
history is empty — the operation appends zero entries, not exactly one. -/
theorem create_history_empty_counterexample :
    demoCreateReq.history = [] ∧
    resOk (create1 [] demoCreateReq 1).2 = true ∧
    historyLengths (create1 [] demoCreateReq 1).1 = [0] := by decide


/-- C6 witness: the variant-1 status change on the demo client appends
exactly the one `STATUS_CHANGED` entry. -/
theorem history_append_only_witness :
    demoDisabled.history = demoClient.history ++
      [{ action := "STATUS_CHANGED to " ++ "Disabled", notes := some "client requested",
         actor := "admin" }] := by
  have h : status1 demoDb 1 "Disabled" (some "client requested")
      = ([demoDisabled], Res.ok demoDisabled) := by decide
  exact history_append_only.2.2.2.2.2.2.1 demoDb 1 "Disabled" (some "client requested")
    demoClient [demoDisabled] demoDisabled (by decide) h

/-- C10: a successful variant-1 `PUT /api/clients/:id` stores the request's
`photoUrl` verbatim — erasing it (`undefined`) when the body omits it — and
forces `status = "Processed"` regardless of the prior status. -/
theorem update1_overwrites_photo_and_status
    {db : Db} {id : Nat} {req : Update1Req} {db' : Db} {c' : Client}
    (h : update1 db id req = (db', Res.ok c')) :
    c'.photoUrl = req.photoUrl ∧ c'.status = "Processed" ∧
    (req.photoUrl = none → c'.photoUrl = none) := by
  simp only [update1] at h
  split at h
  · exact absurd (congrArg Prod.snd h) (by simp)
  · split at h
    · split at h
      · exact absurd (congrArg Prod.snd h) (by simp)
      · have hc := congrArg Prod.snd h
        simp only [Res.ok.injEq] at hc
        subst hc
        exact ⟨rfl, rfl, fun hn => by rw [hn]⟩
    · exact absurd (congrArg Prod.snd h) (by simp)

/-- C10 witness: updating the demo client with an empty body erases the
photo URL and forces the `"Processed"` status. -/
theorem update1_overwrites_photo_and_status_witness :
    demoProcessed.photoUrl = none ∧ demoProcessed.status = "Processed" := by
  have h : update1 demoDb 1 ({} : Update1Req)
      = ([demoProcessed], Res.ok demoProcessed) := by decide
  have hc := update1_overwrites_photo_and_status h
  exact ⟨hc.2.2 rfl, hc.2.1⟩

end SmartCardLink
